import Mathlib

/-!
Verification of the agent orchestration pipeline of the rust-agentic-framework
repository against its natural-language specification.

The development shallowly embeds the Rust source:
- `crates/server/src/agent.rs` (ToolCallDetector, AgentService.process_message,
  convert_to_llm_messages_static),
- `crates/server/src/errors.rs` (AgentError and its HTTP/retryable mapping),
- `crates/server/src/main.rs` (predict_stream_with_agent handler),
- `crates/llm/src/bedrock.rs` (BedrockClient.call_claude retry/fallback loop),
- `crates/embeddings/src/cohere.rs` (CohereClient.embed retry loop),
- `crates/embeddings/src/chunker.rs` (TextChunker.chunk_text).

Modelling conventions:
- Rust `Result<T, E>` is `Except E T`; `anyhow` context strings become the
  propagated error string (matching the Display of the outermost context).
- External collaborators (Redis session store, embedding provider, vector
  store, Bedrock) are modelled as injected outcome functions in `Env` and
  `StoreCtx`; the session store state is an explicit message list.
- `serde_json::Value` payloads are modelled as already-serialized strings,
  and the JSON argument map of a tool invocation as an ordered association
  list; the f32 similarity score of a search result is not modelled (it is
  never consumed by the verified code paths).
- Async sleeps and model invocations are recorded in an explicit action
  trace (`RetryAction`), so the retry/backoff policies become pure functions
  from per-attempt outcomes to traces.
- Machine integers (u32 attempt counters, usize indices, u64 milliseconds)
  are modelled as `Nat`; none of the verified properties depends on wrap-around.
-/

/-- Message role, from `crates/store` (`Role`): User, Assistant or Tool. -/
inductive Role where
  | user
  | assistant
  | tool
deriving DecidableEq, Repr

/-- Session message, from `crates/store` (`Message`). -/
structure Message where
  role : Role
  content : String
  name : Option String
deriving DecidableEq, Repr

/-- Tool invocation, from `crates/tooling/src/tool.rs` (`ToolInput`); the
argument map is modelled as an ordered association list. -/
structure ToolInput where
  name : String
  arguments : List (String × String)
deriving DecidableEq, Repr

/-- Tool result, from `crates/tooling/src/tool.rs` (`ToolOutput`); `result`
holds the serialized JSON value. -/
structure ToolOutput where
  success : Bool
  result : String
  error_message : Option String
deriving DecidableEq, Repr

/-- Tool failure, from `crates/tooling/src/tool.rs` (`ToolError`). -/
structure ToolError where
  tool_name : String
  message : String
  recoverable : Bool
deriving DecidableEq, Repr

/-- Display impl of `ToolError` in `tool.rs`:
`Tool '<name>' error: <message>`. -/
def tool_error_display (e : ToolError) : String :=
  "Tool \x27" ++ e.tool_name ++ "\x27 error: " ++ e.message

/-- Chat message sent to the LLM, from `crates/llm/src/models.rs`
(`ChatMessage`). -/
structure ChatMessage where
  role : String
  content : String
  name : Option String
deriving DecidableEq, Repr

/-- Stream event of the generation client, from `crates/llm/src/models.rs`
(`StreamEvent`). -/
inductive StreamEvent where
  | contentBlockStart
  | contentBlockDelta (text : String)
  | contentBlockStop
  | messageStart
  | messageStop
  | error (message : String)
deriving DecidableEq, Repr

/-- Retrieved document, from `crates/store` (`Document`), restricted to the
fields the orchestrator consumes. -/
structure SearchDoc where
  file_name : String
  content : String
deriving DecidableEq, Repr

/-- Vector search hit, from `crates/store` (`SearchResult`); the f32
similarity score is not modelled because the verified code never reads it. -/
structure SearchResult where
  document : SearchDoc
deriving DecidableEq, Repr

/-- Output event of the pipeline, from `crates/server/src/sse.rs`: the event
kind together with its data payload fields. -/
inductive OutputEvent where
  | toolUsage (tool : String) (args : List (String × String)) (duration_ms : Nat) (result : String)
  | assistantOutput (content : String)
  | contentDelta (content : String)
  | streamStart
  | streamEnd
  | errorEvent (error : String) (retryable : Bool) (http_status : Nat)
deriving DecidableEq, Repr

/-! String helpers modelling the Rust standard library functions used by the
source. -/

/-- Whitespace scanner: accumulates the current token (reversed) and cuts at
whitespace characters, discarding empty fragments. -/
def ws_go : List Char → List Char → List String
  | [], acc => if acc.isEmpty then [] else [String.mk acc.reverse]
  | c :: cs, acc =>
    if c.isWhitespace then
      if acc.isEmpty then ws_go cs [] else String.mk acc.reverse :: ws_go cs []
    else ws_go cs (c :: acc)

/-- Model of Rust `str::split_whitespace`: split at whitespace characters and
drop empty fragments. -/
def split_whitespace (s : String) : List String :=
  ws_go s.toList []

/-- Model of Rust `str::join(" ")` over a token list. -/
def space_join : List String → String
  | [] => ""
  | t :: rest => if rest.isEmpty then t else t ++ " " ++ space_join rest

/-- Whether the pattern (first argument) is a leading segment of the list. -/
def head_match : List Char → List Char → Bool
  | [], _ => true
  | _ :: _, [] => false
  | a :: as, b :: bs => a == b && head_match as bs

/-- Whether the pattern (first argument) occurs contiguously in the list. -/
def occurs_in : List Char → List Char → Bool
  | pat, [] => head_match pat []
  | pat, b :: rest => head_match pat (b :: rest) || occurs_in pat rest

/-- Model of Rust `str::contains(pattern)` for a string pattern. -/
def str_contains (s pat : String) : Bool :=
  occurs_in pat.toList s.toList

/-- Model of Rust `str::contains(char)`. -/
def str_contains_char (s : String) (c : Char) : Bool :=
  s.toList.contains c

/-- Model of Rust `str::ends_with(suffix)`. -/
def str_ends_with (s suffix : String) : Bool :=
  head_match suffix.toList.reverse s.toList.reverse

/-- Model of Rust `str::starts_with(pre)`; a Unix path is absolute exactly
when it starts with `/`. -/
def str_starts_with (s pre : String) : Bool :=
  head_match pre.toList s.toList

/-! Text chunker, from `crates/embeddings/src/chunker.rs`. -/

/-- A text chunk with metadata, from `chunker.rs` (`TextChunk`). Offsets are
byte offsets, as in Rust `str::len`. -/
structure TextChunk where
  content : String
  start_pos : Nat
  end_pos : Nat
  chunk_id : Nat
deriving DecidableEq, Repr

/-- Chunking configuration, from `chunker.rs` (`ChunkConfig`). -/
structure ChunkConfig where
  chunk_size : Nat
  overlap_size : Nat
deriving DecidableEq, Repr

/-- Byte length of the first `k` tokens, each counted with one separator
character: `tokens[0..k].iter().map(|t| t.len() + 1).sum()` in `chunker.rs`. -/
def token_prefix_bytes (toks : List String) (k : Nat) : Nat :=
  ((toks.take k).map (fun t => t.utf8ByteSize + 1)).sum

/-- Character start position of the chunk beginning at token `start`, from
`chunker.rs` lines 66-75 (`saturating_sub` is `Nat` subtraction). -/
def chunk_start_pos (toks : List String) (start : Nat) : Nat :=
  if start = 0 then 0 else token_prefix_bytes toks start - 1

/-- One chunk record as built by the loop body of `chunk_text`. -/
def mk_chunk (text : String) (toks : List String) (start e cid : Nat) : TextChunk :=
  let content := space_join ((toks.drop start).take (e - start))
  let sp := chunk_start_pos toks start
  { content := content
    start_pos := sp
    end_pos := if e = toks.length then text.utf8ByteSize else sp + content.utf8ByteSize
    chunk_id := cid }

/-- The `while start_token_idx < total_tokens` loop of `chunk_text`,
fuel-indexed (the Rust loop terminates only for sane configurations; the
theorems below supply enough fuel under `overlap_size < chunk_size`). -/
def chunk_loop (text : String) (toks : List String) (cfg : ChunkConfig) :
    Nat → Nat → Nat → List TextChunk
  | 0, _, _ => []
  | fuel + 1, start, cid =>
    if start < toks.length then
      let e := min (start + cfg.chunk_size) toks.length
      let c := mk_chunk text toks start e cid
      if toks.length ≤ e then [c]
      else c :: chunk_loop text toks cfg fuel (e - cfg.overlap_size) (cid + 1)
    else []

/-- `TextChunker::chunk_text` from `chunker.rs`: empty text yields no chunks;
short text yields a single chunk; otherwise the sliding-window loop runs. -/
def chunk_text (cfg : ChunkConfig) (text : String) : List TextChunk :=
  if text = "" then []
  else
    let toks := split_whitespace text
    if toks.length ≤ cfg.chunk_size then
      [{ content := text, start_pos := 0, end_pos := text.utf8ByteSize, chunk_id := 0 }]
    else chunk_loop text toks cfg (toks.length + 1) 0 0

/-! Tool call detector, from `crates/server/src/agent.rs`
(`ToolCallDetector::detect_tool_calls`). -/

/-- The `for word in words` loop of `detect_tool_calls`: a token qualifies if
it contains a dot and ends with `.txt`, `.rs` or `.py`; qualifying tokens are
resolved against `document_dir` unless absolute (modelled as starting with
`/`, the Unix `Path::is_absolute`). -/
def detect_go (document_dir : String) : List String → List ToolInput
  | [] => []
  | word :: rest =>
    if str_contains_char word '.' &&
        (str_ends_with word ".txt" || str_ends_with word ".rs"
          || str_ends_with word ".py") then
      { name := "file_summarizer",
        arguments :=
          [("file_path",
            if str_starts_with word "/" then word
            else document_dir ++ "/" ++ word)] }
        :: detect_go document_dir rest
    else detect_go document_dir rest

/-- `ToolCallDetector::detect_tool_calls`: the token scan runs only when the
whole text contains `file:`, `.txt` or `.rs` (the outer guard at
`agent.rs:113`); otherwise no invocations are produced. -/
def detect_tool_calls (document_dir content : String) : List ToolInput :=
  if str_contains content "file:" || str_contains content ".txt"
      || str_contains content ".rs" then
    detect_go document_dir (split_whitespace content)
  else []

/-! Error taxonomy, from `crates/server/src/errors.rs`. -/

/-- Pipeline error taxonomy, from `errors.rs` (`AgentError`). -/
inductive AgentError where
  | embeddingError (msg : String)
  | toolError (msg : String)
  | llmError (msg : String)
  | databaseError (msg : String)
  | vectorStoreError (msg : String)
  | sessionError (msg : String)
  | configError (msg : String)
  | validationError (msg : String)
deriving DecidableEq, Repr

/-- `AgentError::http_status_code` from `errors.rs`. -/
def http_status_code : AgentError → Nat
  | .embeddingError _ => 500
  | .toolError _ => 400
  | .llmError _ => 503
  | .databaseError _ => 500
  | .vectorStoreError _ => 500
  | .sessionError _ => 422
  | .configError _ => 500
  | .validationError _ => 400

/-- `AgentError::is_retryable` from `errors.rs`. -/
def is_retryable : AgentError → Bool
  | .embeddingError _ => true
  | .toolError _ => false
  | .llmError _ => true
  | .databaseError _ => true
  | .vectorStoreError _ => true
  | .sessionError _ => false
  | .configError _ => false
  | .validationError _ => false

/-- Display impl of `AgentError` generated by `thiserror` in `errors.rs`. -/
def agent_error_display : AgentError → String
  | .embeddingError s => "Embedding service error: " ++ s
  | .toolError s => "Tool execution error: " ++ s
  | .llmError s => "LLM service error: " ++ s
  | .databaseError s => "Database connection error: " ++ s
  | .vectorStoreError s => "Vector store error: " ++ s
  | .sessionError s => "Session management error: " ++ s
  | .configError s => "Configuration error: " ++ s
  | .validationError s => "Invalid request: " ++ s

/-- `create_error_event` from `crates/server/src/sse.rs`: an `error_event`
carrying the error display, retryable flag and HTTP status. -/
def create_error_event (err : AgentError) : OutputEvent :=
  OutputEvent.errorEvent (agent_error_display err) (is_retryable err) (http_status_code err)

/-! Retry / model-fallback policies. Each policy is embedded as a pure
function from per-attempt outcomes to a trace of recorded actions (model
invocations and backoff sleeps) plus the final outcome. -/

/-- One observable action of a retry loop: invoking a model on a given
attempt, or sleeping for a backoff delay in milliseconds. -/
inductive RetryAction where
  | attempt (n : Nat) (model : String)
  | sleep (ms : Nat)
deriving DecidableEq, Repr

/-- The `while attempt <= max_retries` loop of `BedrockClient::call_claude`
(`bedrock.rs` lines 44-73), parametrized by the outcome of each underlying
`try_call_claude` invocation. `rem` is the fuel `max_retries + 1 - attempt`;
the base case is unreachable from `call_claude`. The recorded sleep after a
failure of attempt `a` is `1000 * 2 ^ ((a + 1) - 1)` milliseconds, exactly
the `Duration::from_millis(1000 * 2_u64.pow(attempt - 1))` of the source
after `attempt` has been incremented. -/
def call_claude_go (max_retries : Nat) (primary fallback : String)
    (try_call : Nat → String → Except String (List (Except String StreamEvent))) :
    Nat → Nat → Option String →
      List RetryAction × Except String (List (Except String StreamEvent))
  | 0, _, last => ([], Except.error (last.getD "no attempts"))
  | rem + 1, attempt, _ =>
    let model := if attempt = 0 then primary else fallback
    match try_call attempt model with
    | Except.ok s => ([RetryAction.attempt attempt model], Except.ok s)
    | Except.error e =>
      if attempt + 1 ≤ max_retries then
        let next := call_claude_go max_retries primary fallback try_call rem
          (attempt + 1) (some e)
        (RetryAction.attempt attempt model
          :: RetryAction.sleep (1000 * 2 ^ (attempt + 1 - 1)) :: next.1, next.2)
      else ([RetryAction.attempt attempt model], Except.error e)

/-- `BedrockClient::call_claude`: attempts numbered from 0; attempt 0 targets
the primary model, every later attempt the fallback model. -/
def call_claude (max_retries : Nat) (primary fallback : String)
    (try_call : Nat → String → Except String (List (Except String StreamEvent))) :
    List RetryAction × Except String (List (Except String StreamEvent)) :=
  call_claude_go max_retries primary fallback try_call (max_retries + 1) 0 none

/-- The `for attempt in 0..=max_retries` loop of `CohereClient::embed`
(`cohere.rs` lines 54-75), parametrized by the outcome of each underlying
`try_embed` call. Every attempt targets the same configured model; the sleep
after a failed attempt `a` (when a next attempt exists) is
`1000 * 2 ^ a` milliseconds. -/
def cohere_embed_go (max_retries : Nat) (model : String)
    (try_embed : Nat → Except String (List (List Int))) :
    Nat → Nat → Option String → List RetryAction × Except String (List (List Int))
  | 0, _, last => ([], Except.error (last.getD "no attempts"))
  | rem + 1, attempt, _ =>
    match try_embed attempt with
    | Except.ok r => ([RetryAction.attempt attempt model], Except.ok r)
    | Except.error e =>
      if attempt < max_retries then
        let next := cohere_embed_go max_retries model try_embed rem (attempt + 1) (some e)
        (RetryAction.attempt attempt model
          :: RetryAction.sleep (1000 * 2 ^ attempt) :: next.1, next.2)
      else ([RetryAction.attempt attempt model], Except.error e)

/-- `CohereClient::embed`: empty input yields empty output without any
attempt; otherwise the retry loop runs with attempts `0..=max_retries`. -/
def cohere_embed (model : String) (max_retries : Nat)
    (try_embed : Nat → Except String (List (List Int))) (texts : List String) :
    List RetryAction × Except String (List (List Int)) :=
  if texts.isEmpty then ([], Except.ok [])
  else cohere_embed_go max_retries model try_embed (max_retries + 1) 0 none

/-! Session store model and the orchestrator
(`AgentService::process_message`, `agent.rs` lines 271-445). -/

/-- Failure injection for the Redis session store: `append_fail n` is the
outcome of the n-th `append` call of the request (counted from 0), `get_fail`
the outcome of `get`. -/
structure StoreCtx where
  append_fail : Nat → Option String
  get_fail : Option String

/-- Session store state: the per-session ordered message list and how many
appends have been issued so far in this request. -/
structure StoreState where
  session : List Message
  append_count : Nat
deriving DecidableEq, Repr

/-- `RedisSessionStore::append`, with injected failures. -/
def store_append (ctx : StoreCtx) (st : StoreState) (m : Message) :
    Except String StoreState :=
  match ctx.append_fail st.append_count with
  | some e => Except.error e
  | none => Except.ok { session := st.session ++ [m], append_count := st.append_count + 1 }

/-- `RedisSessionStore::get`, with injected failure; on error the orchestrator
propagates the anyhow context string. -/
def session_get (ctx : StoreCtx) (st : StoreState) : Except String (List Message) :=
  match ctx.get_fail with
  | some _ => Except.error "Failed to get session messages"
  | none => Except.ok st.session

/-- Collaborator outcomes injected into one `process_message` run. -/
structure Env where
  document_dir : String
  tool_exec : ToolInput → Except ToolError ToolOutput
  embed_result : List String → Except String (List (List Int))
  search_result : List Int → Nat → Except String (List SearchResult)
  llm_result : List ChatMessage → Except String (List (Except String StreamEvent))

/-- Assistant-output text for an embedding failure (`agent.rs:335`). -/
def embedding_error_msg (e : String) : String :=
  "I\x27m having trouble processing your request due to an embedding error: " ++ e

/-- Assistant-output text for an empty embedding batch (`agent.rs:346`). -/
def no_embedding_msg : String :=
  "I\x27m having trouble generating embeddings for your query."

/-- Assistant-output text for a dimension-mismatch search failure
(`agent.rs:358`). -/
def dim_mismatch_msg (e : String) : String :=
  "Vector search failed due to embedding dimension mismatch. This usually means the database was created with different embedding dimensions than the current provider (Bedrock Cohere uses 1024). Please recreate the database or run initialization again. Details: " ++ e

/-- Assistant-output text for a generic search failure (`agent.rs:363`). -/
def search_error_msg (e : String) : String :=
  "I\x27m having trouble searching documents: " ++ e

/-- Assistant-output text for a generation failure (`agent.rs:414` and
`agent.rs:437`). -/
def ai_error_msg (e : String) : String :=
  "I\x27m having trouble with the AI service: " ++ e

/-- The `for message in &messages` persistence loop opening
`process_message`. -/
def append_all (ctx : StoreCtx) : List Message → StoreState → Except String StoreState
  | [], st => Except.ok st
  | m :: rest, st =>
    match store_append ctx st m with
    | Except.error _ => Except.error "Failed to append message to session"
    | Except.ok st2 => append_all ctx rest st2

/-- Locate the most recent User message: `messages.iter().rev().find(...)`. -/
def find_user_message (messages : List Message) : Option Message :=
  messages.reverse.find? (fun m => match m.role with | Role.user => true | _ => false)

/-- The tool-execution loop of `process_message` (`agent.rs` lines 294-325):
successes append a Tool message to the session and emit a `tool_usage` event;
failures emit a `tool_usage` event with tool name `unknown`, null arguments
and the error text, and the loop continues. -/
def tool_phase (env : Env) (ctx : StoreCtx) :
    List ToolInput → StoreState → List OutputEvent →
      Except String (List OutputEvent × StoreState)
  | [], st, evs => Except.ok (evs, st)
  | call :: rest, st, evs =>
    match env.tool_exec call with
    | Except.ok out =>
      match store_append ctx st
          { role := Role.tool, content := out.result, name := some "tool_result" } with
      | Except.error _ => Except.error "Failed to append tool message to session"
      | Except.ok st2 =>
        tool_phase env ctx rest st2
          (evs ++ [OutputEvent.toolUsage call.name call.arguments 0 out.result])
    | Except.error e =>
      tool_phase env ctx rest st
        (evs ++ [OutputEvent.toolUsage "unknown" [] 0
          ("Error: " ++ tool_error_display e)])

/-- The context-string construction of `convert_to_llm_messages_static`
(`agent.rs` lines 548-556): header, one `From <file>: <content>` paragraph
per search result, then the fixed instruction sentence. -/
def build_context (search_results : List SearchResult) : String :=
  (search_results.foldl
      (fun ctx r =>
        ctx ++ ("From " ++ r.document.file_name ++ ": " ++ r.document.content ++ "\n\n"))
      "Context information from relevant documents:\n\n")
    ++ "Based on the above context, please answer the user\x27s question."

/-- The session-history conversion loop of `convert_to_llm_messages_static`
(`agent.rs` lines 566-578): User and Assistant map directly, Tool messages
are skipped. -/
def convert_go : List Message → List ChatMessage → List ChatMessage
  | [], acc => acc
  | m :: rest, acc =>
    match m.role with
    | Role.tool => convert_go rest acc
    | Role.user => convert_go rest (acc ++ [{ role := "user", content := m.content, name := none }])
    | Role.assistant =>
      convert_go rest (acc ++ [{ role := "assistant", content := m.content, name := none }])

/-- `AgentService::convert_to_llm_messages_static` (`agent.rs` lines
541-581). -/
def convert_to_llm_messages_static (messages : List Message)
    (search_results : List SearchResult) : List ChatMessage :=
  let init :=
    if search_results.isEmpty then []
    else [{ role := "user", content := build_context search_results, name := none }]
  convert_go messages init

/-- The stream-draining loop of `process_message` (`agent.rs` lines 396-421):
returns the emitted events and the accumulated full response. Non-empty
content deltas are accumulated and emitted; `MessageStop` emits `stream_end`
and stops; other `Ok` events are ignored; an `Err` item emits an explanatory
`assistant_output` and stops. -/
def drain_go : List (Except String StreamEvent) → String → List OutputEvent × String
  | [], acc => ([], acc)
  | Except.ok (StreamEvent.contentBlockDelta t) :: rest, acc =>
    if t = "" then drain_go rest acc
    else
      let r := drain_go rest (acc ++ t)
      (OutputEvent.contentDelta t :: r.1, r.2)
  | Except.ok StreamEvent.messageStop :: _, acc => ([OutputEvent.streamEnd], acc)
  | Except.ok _ :: rest, acc => drain_go rest acc
  | Except.error e :: _, acc => ([OutputEvent.assistantOutput (ai_error_msg e)], acc)

/-- The generation phase of `process_message` (`agent.rs` lines 389-442):
on a failed `call_claude` emit one explanatory `assistant_output`; otherwise
drain the stream and, if the accumulated response is non-empty, append it to
the session as an Assistant message. -/
def generation_phase (ctx : StoreCtx) (st : StoreState)
    (llm_result : Except String (List (Except String StreamEvent))) :
    Except String (List OutputEvent × StoreState) :=
  match llm_result with
  | Except.error e => Except.ok ([OutputEvent.assistantOutput (ai_error_msg e)], st)
  | Except.ok stream =>
    let d := drain_go stream ""
    if d.2 = "" then Except.ok (d.1, st)
    else
      match store_append ctx st { role := Role.assistant, content := d.2, name := none } with
      | Except.error _ => Except.error "Failed to append assistant message to session"
      | Except.ok st2 => Except.ok (d.1, st2)

/-- `AgentService::process_message` (`agent.rs` lines 271-445): persist the
input batch, locate the latest User message, run tools, embed the user query,
search documents, fetch the session, build the conversation and stream the
generation, converting phase failures to events where the source does and
propagating the session-store and missing-user-message failures as errors. -/
def process_message (env : Env) (ctx : StoreCtx) (messages : List Message)
    (st0 : StoreState) : Except String (List OutputEvent × StoreState) :=
  match append_all ctx messages st0 with
  | Except.error e => Except.error e
  | Except.ok st1 =>
    match find_user_message messages with
    | none => Except.error "No user message found"
    | some user_message =>
      let tool_calls := detect_tool_calls env.document_dir user_message.content
      match tool_phase env ctx tool_calls st1 [] with
      | Except.error e => Except.error e
      | Except.ok (events, st2) =>
        match env.embed_result [user_message.content] with
        | Except.error e =>
          Except.ok (events ++ [OutputEvent.assistantOutput (embedding_error_msg e)], st2)
        | Except.ok embeddings =>
          match embeddings.head? with
          | none => Except.ok (events ++ [OutputEvent.assistantOutput no_embedding_msg], st2)
          | some query_embedding =>
            match env.search_result query_embedding 5 with
            | Except.error e =>
              let msg :=
                if str_contains e "embedding dimensions" then dim_mismatch_msg e
                else search_error_msg e
              Except.ok (events ++ [OutputEvent.assistantOutput msg], st2)
            | Except.ok search_results =>
              match session_get ctx st2 with
              | Except.error e => Except.error e
              | Except.ok session_messages =>
                let llm_messages :=
                  convert_to_llm_messages_static session_messages search_results
                match generation_phase ctx st2 (env.llm_result llm_messages) with
                | Except.error e => Except.error e
                | Except.ok (gen_events, st3) => Except.ok (events ++ gen_events, st3)

/-- The `anyhow` error classification of `predict_stream_with_agent`
(`main.rs` lines 50-62). -/
def classify_error (e : String) : AgentError :=
  if str_contains e "embedding" then AgentError.embeddingError e
  else if str_contains e "tool" then AgentError.toolError e
  else if str_contains e "LLM" || str_contains e "Bedrock" then AgentError.llmError e
  else if str_contains e "database" || str_contains e "vector" then
    AgentError.databaseError e
  else AgentError.validationError e

/-- Apology message of the handler error path (`main.rs:67`). -/
def apology_msg : String :=
  "I\x27m sorry, I encountered an error processing your request."

/-- `predict_stream_with_agent` (`main.rs` lines 38-73): a successful
`process_message` streams its events; a failed one streams an `error_event`
for the classified error followed by an apology `assistant_output`. -/
def predict_stream_with_agent (env : Env) (ctx : StoreCtx) (messages : List Message)
    (st0 : StoreState) : List OutputEvent :=
  match process_message env ctx messages st0 with
  | Except.ok p => p.1
  | Except.error e =>
    [create_error_event (classify_error e), OutputEvent.assistantOutput apology_msg]

/-- The output event produced for one tool invocation (`agent.rs` lines
296-324): a success uses the invocation name, its arguments and the
serialized result; a failure uses name `unknown`, null arguments and the
error text. -/
def tool_event (env : Env) (call : ToolInput) : OutputEvent :=
  match env.tool_exec call with
  | Except.ok out => OutputEvent.toolUsage call.name call.arguments 0 out.result
  | Except.error e =>
    OutputEvent.toolUsage "unknown" [] 0 ("Error: " ++ tool_error_display e)

/-- The session message appended for one tool invocation: a Tool-role message
with the serialized result on success, nothing on failure. -/
def tool_session_entry (env : Env) (call : ToolInput) : Option Message :=
  match env.tool_exec call with
  | Except.ok out =>
    some { role := Role.tool, content := out.result, name := some "tool_result" }
  | Except.error _ => none

/-! Concrete environments and states used by witnesses and counterexamples. -/

/-- Store context whose operations all succeed. -/
def ctx_ok : StoreCtx :=
  { append_fail := fun _ => none, get_fail := none }

/-- Store context whose very first append fails. -/
def ctx_append0_fail : StoreCtx :=
  { append_fail := fun n => if n = 0 then some "connection refused" else none,
    get_fail := none }

/-- Environment in which every collaborator fails. -/
def env_fail_all : Env :=
  { document_dir := "/docs"
    tool_exec := fun c => Except.error { tool_name := c.name, message := "file missing", recoverable := false }
    embed_result := fun _ => Except.error "embed down"
    search_result := fun _ _ => Except.ok []
    llm_result := fun _ => Except.error "llm down" }

/-- Environment whose only registered tool is `file_summarizer`. -/
def env_demo_tools : Env :=
  { document_dir := "/docs"
    tool_exec := fun c =>
      if c.name = "file_summarizer" then
        Except.ok { success := true, result := "summary", error_message := none }
      else Except.error { tool_name := c.name, message := "not found", recoverable := false }
    embed_result := fun _ => Except.error "embed down"
    search_result := fun _ _ => Except.ok []
    llm_result := fun _ => Except.error "llm down" }

/-- Environment whose generation stream yields an empty delta, a non-empty
delta, then MessageStop. -/
def env_stream_demo : Env :=
  { document_dir := "/docs"
    tool_exec := fun c => Except.error { tool_name := c.name, message := "file missing", recoverable := false }
    embed_result := fun _ => Except.ok [[1]]
    search_result := fun _ _ => Except.ok []
    llm_result := fun _ => Except.ok
      [Except.ok (StreamEvent.contentBlockDelta ""),
       Except.ok (StreamEvent.contentBlockDelta "Hi"),
       Except.ok StreamEvent.messageStop] }

/-- A plain user message with no file-like tokens. -/
def msg_user : Message :=
  { role := Role.user, content := "hello", name := none }

/-- The empty session store state. -/
def st_init : StoreState :=
  { session := [], append_count := 0 }

/-! Helper lemmas shared by the claim theorems. -/

/-- Folding string concatenation factors through `String.join`. -/
theorem string_foldl_append (l : List String) :
    ∀ s : String, l.foldl (· ++ ·) s = s ++ String.join l := by
  induction l with
  | nil => intro s; simp [String.join, String.append_empty]
  | cons a rest ih =>
    intro s
    have hj : String.join (a :: rest) = a ++ String.join rest := by
      show List.foldl (· ++ ·) ("" ++ a) rest = a ++ String.join rest
      rw [String.empty_append, ih a]
    rw [List.foldl_cons, ih (s ++ a), hj, String.append_assoc]

/-- `String.join` splits off the head. -/
theorem string_join_cons (a : String) (l : List String) :
    String.join (a :: l) = a ++ String.join l := by
  show List.foldl (· ++ ·) ("" ++ a) l = a ++ String.join l
  rw [String.empty_append, string_foldl_append l a]

/-- Folding string concatenation of rendered elements from an initial string
factors through `String.join` of the rendered list. -/
theorem foldl_render_append {α : Type} (f : α → String) (l : List α) :
    ∀ init : String,
      l.foldl (fun c r => c ++ f r) init = init ++ String.join (l.map f) := by
  induction l with
  | nil => intro init; simp [String.join, String.append_empty]
  | cons a rest ih =>
    intro init
    rw [List.map_cons, string_join_cons, List.foldl_cons, ih (init ++ f a),
      String.append_assoc]

/-- The `for word in words` detection loop is the order-preserving filter-map
of the per-token qualification rule. -/
theorem detect_go_eq (dir : String) (ws : List String) :
    detect_go dir ws = ws.filterMap (fun word =>
      if str_contains_char word '.' &&
          (str_ends_with word ".txt" || str_ends_with word ".rs"
            || str_ends_with word ".py") then
        some { name := "file_summarizer",
               arguments :=
                 [("file_path",
                   if str_starts_with word "/" then word else dir ++ "/" ++ word)] }
      else none) := by
  induction ws with
  | nil => rfl
  | cons w rest ih =>
    rw [List.filterMap_cons]
    by_cases h : (str_contains_char w '.' &&
        (str_ends_with w ".txt" || str_ends_with w ".rs"
          || str_ends_with w ".py")) = true
    · simp only [detect_go, if_pos h, ih]
    · simp only [detect_go, if_neg h, ih]

/-- C7: every pipeline error kind carries exactly the fixed HTTP status and
retryable flag of the taxonomy: Embedding (500, retryable), Tool (400, not),
Generation/LLM (503, retryable), Database (500, retryable), VectorStore
(500, retryable), Session (422, not), Config (500, not), Validation
(400, not). -/
theorem error_taxonomy_fixed_mapping :
    ∀ s : String,
      http_status_code (AgentError.embeddingError s) = 500
      ∧ is_retryable (AgentError.embeddingError s) = true
      ∧ http_status_code (AgentError.toolError s) = 400
      ∧ is_retryable (AgentError.toolError s) = false
      ∧ http_status_code (AgentError.llmError s) = 503
      ∧ is_retryable (AgentError.llmError s) = true
      ∧ http_status_code (AgentError.databaseError s) = 500
      ∧ is_retryable (AgentError.databaseError s) = true
      ∧ http_status_code (AgentError.vectorStoreError s) = 500
      ∧ is_retryable (AgentError.vectorStoreError s) = true
      ∧ http_status_code (AgentError.sessionError s) = 422
      ∧ is_retryable (AgentError.sessionError s) = false
      ∧ http_status_code (AgentError.configError s) = 500
      ∧ is_retryable (AgentError.configError s) = false
      ∧ http_status_code (AgentError.validationError s) = 400
      ∧ is_retryable (AgentError.validationError s) = false := by
  intro s
  repeat constructor

/-- C4 counterexample: the token `script.py` contains a dot and ends with the
allow-listed extension `.py`, yet `detect_tool_calls` yields no invocation,
because the whole text contains none of the substrings `file:`, `.txt`,
`.rs` that gate the token scan. -/
theorem detector_py_token_counterexample :
    detect_tool_calls "/docs" "script.py" = []
    ∧ ([] : List ToolInput)
        ≠ [{ name := "file_summarizer",
             arguments := [("file_path", "/docs/script.py")] }] := by
  constructor
  · decide
  · decide

/-- C4 amended: provided the message text contains one of the substrings
`file:`, `.txt` or `.rs`, each whitespace token containing a dot and ending
with `.txt`, `.rs` or `.py` yields exactly one `file_summarizer` invocation,
in token order, with the token joined to the base directory unless absolute,
and duplicates preserved; a text containing none of those substrings yields
no invocations. The spec example text yields the two expected invocations in
order. -/
theorem detector_token_rule_amended :
    (∀ dir content : String,
      detect_tool_calls dir content =
        if str_contains content "file:" || str_contains content ".txt"
            || str_contains content ".rs" then
          (split_whitespace content).filterMap (fun word =>
            if str_contains_char word '.' &&
                (str_ends_with word ".txt" || str_ends_with word ".rs"
                  || str_ends_with word ".py") then
              some { name := "file_summarizer",
                     arguments :=
                       [("file_path",
                         if str_starts_with word "/" then word
                         else dir ++ "/" ++ word)] }
            else none)
        else [])
    ∧ detect_tool_calls "/docs" "Please summarize this file: test.txt and report.rs"
        = [{ name := "file_summarizer", arguments := [("file_path", "/docs/test.txt")] },
           { name := "file_summarizer", arguments := [("file_path", "/docs/report.rs")] }] := by
  constructor
  · intro dir content
    by_cases h : (str_contains content "file:" || str_contains content ".txt"
        || str_contains content ".rs") = true
    · simp only [detect_tool_calls, if_pos h, detect_go_eq]
    · simp only [detect_tool_calls, if_neg h]
  · decide

/-- The conversion loop is the order-preserving filter-map of the role
mapping appended to the accumulator. -/
theorem convert_go_eq (msgs : List Message) :
    ∀ acc : List ChatMessage,
      convert_go msgs acc =
        acc ++ msgs.filterMap (fun m =>
          match m.role with
          | Role.user => some { role := "user", content := m.content, name := none }
          | Role.assistant =>
            some { role := "assistant", content := m.content, name := none }
          | Role.tool => none) := by
  induction msgs with
  | nil => intro acc; simp [convert_go]
  | cons m rest ih =>
    intro acc
    cases h : m.role <;>
      simp [convert_go, h, List.filterMap_cons, ih]

/-- The context string is the fixed header, one rendered paragraph per
document, then the fixed instruction sentence. -/
theorem build_context_eq (rs : List SearchResult) :
    build_context rs =
      "Context information from relevant documents:\n\n"
        ++ String.join (rs.map (fun r =>
              "From " ++ r.document.file_name ++ ": " ++ r.document.content ++ "\n\n"))
        ++ "Based on the above context, please answer the user\x27s question." := by
  show (rs.foldl _ _) ++ _ = _
  rw [foldl_render_append
    (fun r => "From " ++ r.document.file_name ++ ": " ++ r.document.content ++ "\n\n")
    rs "Context information from relevant documents:\n\n"]

/-- C9 counterexample: with a single retrieved document `f`/`c`, the leading
context message is not the concatenation of the per-document paragraphs and
the instruction sentence alone: the code prefixes a fixed header line. -/
theorem context_message_header_counterexample :
    (convert_to_llm_messages_static [] [{ document := { file_name := "f", content := "c" } }]).map
        (fun m => m.content)
      ≠ ["From f: c\n\n"
          ++ "Based on the above context, please answer the user\x27s question."] := by
  decide

/-- C9 amended: exactly when the retrieved-document list is non-empty, a
single leading User-role context message is prepended, whose content is a
fixed header followed by the concatenation of `From <file>: <content>`
paragraphs and a fixed instruction sentence; the session history follows in
order with User and Assistant mapped directly and Tool messages excluded. -/
theorem conversation_construction_amended :
    ∀ (messages : List Message) (results : List SearchResult),
      convert_to_llm_messages_static messages results =
        (if results.isEmpty then []
         else [{ role := "user",
                 content :=
                   "Context information from relevant documents:\n\n"
                     ++ String.join (results.map (fun r =>
                           "From " ++ r.document.file_name ++ ": "
                             ++ r.document.content ++ "\n\n"))
                     ++ "Based on the above context, please answer the user\x27s question.",
                 name := none }])
        ++ messages.filterMap (fun m =>
            match m.role with
            | Role.user => some { role := "user", content := m.content, name := none }
            | Role.assistant =>
              some { role := "assistant", content := m.content, name := none }
            | Role.tool => none) := by
  intro messages results
  by_cases h : results.isEmpty = true
  · simp only [convert_to_llm_messages_static, if_pos h, convert_go_eq]
  · simp only [convert_to_llm_messages_static, if_neg h, convert_go_eq,
      build_context_eq]

/-- Every attempt recorded by the generation retry loop targets the primary
model for attempt 0 and the fallback model otherwise, from any loop state. -/
theorem call_claude_go_models (max : Nat) (p f : String)
    (tc : Nat → String → Except String (List (Except String StreamEvent))) :
    ∀ (rem attempt : Nat) (last : Option String) (n : Nat) (m : String),
      RetryAction.attempt n m ∈ (call_claude_go max p f tc rem attempt last).1 →
        m = if n = 0 then p else f := by
  intro rem
  induction rem with
  | zero =>
    intro attempt last n m h
    simp [call_claude_go] at h
  | succ rem ih =>
    intro attempt last n m h
    simp only [call_claude_go] at h
    split at h
    · simp only [List.mem_singleton, RetryAction.attempt.injEq] at h
      obtain ⟨hn, hm⟩ := h
      subst hn
      exact hm
    · split at h
      · simp only [List.mem_cons] at h
        rcases h with h | h | h
        · simp only [RetryAction.attempt.injEq] at h
          obtain ⟨hn, hm⟩ := h
          subst hn
          exact hm
        · simp at h
        · exact ih _ _ n m h
      · simp only [List.mem_singleton, RetryAction.attempt.injEq] at h
        obtain ⟨hn, hm⟩ := h
        subst hn
        exact hm

/-- When every underlying call fails, the generation retry loop from attempt
`attempt` performs the remaining attempts with their backoff sleeps and
returns the error of the final attempt. -/
theorem call_claude_go_all_fail (max : Nat) (p f : String)
    (tc : Nat → String → Except String (List (Except String StreamEvent)))
    (errF : Nat → String) (hf : ∀ a m', tc a m' = Except.error (errF a)) :
    ∀ (rem attempt : Nat) (last : Option String),
      attempt + rem = max + 1 → 1 ≤ rem →
      call_claude_go max p f tc rem attempt last =
        (((List.range' attempt rem).map (fun a =>
            RetryAction.attempt a (if a = 0 then p else f)
              :: if a < max then [RetryAction.sleep (1000 * 2 ^ a)] else [])).flatten,
         Except.error (errF max)) := by
  intro rem
  induction rem with
  | zero => intro attempt last hsum h1; omega
  | succ rem ih =>
    intro attempt last hsum h1
    simp only [call_claude_go, hf attempt]
    by_cases hc : attempt + 1 ≤ max
    · have hrem1 : 1 ≤ rem := by omega
      have hsum2 : attempt + 1 + rem = max + 1 := by omega
      have hlt : attempt < max := by omega
      rw [if_pos hc, ih (attempt + 1) (some (errF attempt)) hsum2 hrem1]
      simp [List.range'_succ, hlt, Nat.add_sub_cancel]
    · have hmax : attempt = max := by omega
      have hrem0 : rem = 0 := by omega
      subst hmax hrem0
      rw [if_neg hc]
      simp [List.range'_succ]

/-- C2: in the generation retry/fallback policy, attempt 0 always calls the
primary model and every attempt numbered above 0 calls the fallback model;
when every attempt fails, the trace is attempt 0, a sleep of
`1000 * 2 ^ ((a + 1) - 1)` milliseconds between attempt `a` and attempt
`a + 1` (that is, `base * 2 ^ (N - 1)` before attempt `N`), through attempt
`maxRetries`, after which the error of the last attempt is returned
unchanged — `maxRetries + 1` total attempts. -/
theorem generation_retry_fallback_policy :
    (∀ (max : Nat) (p f : String)
        (tc : Nat → String → Except String (List (Except String StreamEvent)))
        (n : Nat) (m : String),
      RetryAction.attempt n m ∈ (call_claude max p f tc).1 →
        m = if n = 0 then p else f)
    ∧ (∀ (max : Nat) (p f : String)
        (tc : Nat → String → Except String (List (Except String StreamEvent)))
        (errF : Nat → String),
      (∀ a m', tc a m' = Except.error (errF a)) →
      call_claude max p f tc =
        (((List.range (max + 1)).map (fun a =>
            RetryAction.attempt a (if a = 0 then p else f)
              :: if a < max then [RetryAction.sleep (1000 * 2 ^ a)] else [])).flatten,
         Except.error (errF max))) := by
  constructor
  · intro max p f tc n m h
    exact call_claude_go_models max p f tc (max + 1) 0 none n m h
  · intro max p f tc errF hf
    have h := call_claude_go_all_fail max p f tc errF hf (max + 1) 0 none
      (by omega) (by omega)
    rw [List.range_eq_range' (max + 1)]
    exact h

/-- C2 witness: with `maxRetries = 2` and all attempts failing, attempt 0
targets the primary model, attempts 1 and 2 target the fallback model, the
sleeps are 1000 ms and 2000 ms, and the final error is returned unchanged. -/
theorem generation_retry_fallback_policy_witness :
    (∀ (a : Nat) (m' : String),
      (fun (_ : Nat) (_ : String) =>
          (Except.error "boom" : Except String (List (Except String StreamEvent)))) a m'
        = Except.error ((fun (_ : Nat) => "boom") a))
    ∧ call_claude 2 "primary-model" "fallback-model"
        (fun _ _ => Except.error "boom") =
      ([RetryAction.attempt 0 "primary-model", RetryAction.sleep 1000,
        RetryAction.attempt 1 "fallback-model", RetryAction.sleep 2000,
        RetryAction.attempt 2 "fallback-model"], Except.error "boom") := by
  constructor
  · intro a m'; rfl
  · have h := generation_retry_fallback_policy.2 2 "primary-model" "fallback-model"
      (fun _ _ => Except.error "boom") (fun _ => "boom") (fun _ _ => rfl)
    exact h.trans rfl

/-- Every attempt recorded by the embedding retry loop targets the one
configured model, from any loop state. -/
theorem cohere_embed_go_models (max : Nat) (model : String)
    (te : Nat → Except String (List (List Int))) :
    ∀ (rem attempt : Nat) (last : Option String) (n : Nat) (m : String),
      RetryAction.attempt n m ∈ (cohere_embed_go max model te rem attempt last).1 →
        m = model := by
  intro rem
  induction rem with
  | zero =>
    intro attempt last n m h
    simp [cohere_embed_go] at h
  | succ rem ih =>
    intro attempt last n m h
    simp only [cohere_embed_go] at h
    split at h
    · simp only [List.mem_singleton, RetryAction.attempt.injEq] at h
      exact h.2
    · split at h
      · simp only [List.mem_cons] at h
        rcases h with h | h | h
        · simp only [RetryAction.attempt.injEq] at h
          exact h.2
        · simp at h
        · exact ih _ _ n m h
      · simp only [List.mem_singleton, RetryAction.attempt.injEq] at h
        exact h.2

/-- When every underlying call fails, the embedding retry loop from attempt
`attempt` performs the remaining attempts with their backoff sleeps and
returns the error of the final attempt. -/
theorem cohere_embed_go_all_fail (max : Nat) (model : String)
    (te : Nat → Except String (List (List Int)))
    (errF : Nat → String) (hf : ∀ a, te a = Except.error (errF a)) :
    ∀ (rem attempt : Nat) (last : Option String),
      attempt + rem = max + 1 → 1 ≤ rem →
      cohere_embed_go max model te rem attempt last =
        (((List.range' attempt rem).map (fun a =>
            RetryAction.attempt a model
              :: if a < max then [RetryAction.sleep (1000 * 2 ^ a)] else [])).flatten,
         Except.error (errF max)) := by
  intro rem
  induction rem with
  | zero => intro attempt last hsum h1; omega
  | succ rem ih =>
    intro attempt last hsum h1
    simp only [cohere_embed_go, hf attempt]
    by_cases hc : attempt < max
    · have hrem1 : 1 ≤ rem := by omega
      have hsum2 : attempt + 1 + rem = max + 1 := by omega
      rw [if_pos hc, ih (attempt + 1) (some (errF attempt)) hsum2 hrem1]
      simp [List.range'_succ, hc]
    · have hmax : attempt = max := by omega
      have hrem0 : rem = 0 := by omega
      subst hmax hrem0
      rw [if_neg hc]
      simp [List.range'_succ]

/-- C6: in the embedding retry policy every attempt targets the same
configured model; when every attempt fails, the trace sleeps
`1000 * 2 ^ N` milliseconds after failed attempt `N` before the next
attempt, through attempt `maxRetries`, after which the error of the last
attempt is returned unchanged — `maxRetries + 1` total attempts. -/
theorem embedding_retry_policy :
    (∀ (max : Nat) (model : String) (te : Nat → Except String (List (List Int)))
        (texts : List String) (n : Nat) (m : String),
      RetryAction.attempt n m ∈ (cohere_embed model max te texts).1 → m = model)
    ∧ (∀ (max : Nat) (model : String) (te : Nat → Except String (List (List Int)))
        (texts : List String) (errF : Nat → String),
      texts ≠ [] →
      (∀ a, te a = Except.error (errF a)) →
      cohere_embed model max te texts =
        (((List.range (max + 1)).map (fun a =>
            RetryAction.attempt a model
              :: if a < max then [RetryAction.sleep (1000 * 2 ^ a)] else [])).flatten,
         Except.error (errF max))) := by
  constructor
  · intro max model te texts n m h
    by_cases ht : texts.isEmpty = true
    · simp [cohere_embed, ht] at h
    · simp only [cohere_embed, if_neg ht] at h
      exact cohere_embed_go_models max model te (max + 1) 0 none n m h
  · intro max model te texts errF ht hf
    have hte : texts.isEmpty = false := by
      cases texts with
      | nil => exact absurd rfl ht
      | cons a l => rfl
    simp only [cohere_embed, hte, Bool.false_eq_true, if_false]
    rw [List.range_eq_range' (max + 1)]
    exact cohere_embed_go_all_fail max model te errF hf (max + 1) 0 none
      (by omega) (by omega)

/-- C6 witness: with `maxRetries = 2` and all attempts failing on a
non-empty batch, every attempt targets the configured model, the sleeps are
1000 ms and 2000 ms after attempts 0 and 1, and the final error is returned
unchanged. -/
theorem embedding_retry_policy_witness :
    (["text"] ≠ ([] : List String))
    ∧ (∀ (a : Nat),
      (fun (_ : Nat) =>
          (Except.error "down" : Except String (List (List Int)))) a
        = Except.error ((fun (_ : Nat) => "down") a))
    ∧ cohere_embed "embed-english-v3.0" 2 (fun _ => Except.error "down") ["text"] =
      ([RetryAction.attempt 0 "embed-english-v3.0", RetryAction.sleep 1000,
        RetryAction.attempt 1 "embed-english-v3.0", RetryAction.sleep 2000,
        RetryAction.attempt 2 "embed-english-v3.0"], Except.error "down") := by
  refine ⟨by decide, fun a => rfl, ?_⟩
  have h := embedding_retry_policy.2 2 "embed-english-v3.0"
    (fun _ => Except.error "down") ["text"] (fun _ => "down") (by decide) (fun _ => rfl)
  exact h.trans rfl

/-- Characterization of the chunking loop under a sane configuration
(`overlap_size < chunk_size`) with sufficient fuel: the loop emits at least
one chunk, the `i`-th emitted chunk is the window starting at token
`start + i * (chunk_size - overlap_size)`, every non-final window ends
strictly before the last token, and if the first window is not final at
least two chunks are emitted. -/
theorem chunk_loop_spec (text : String) (toks : List String) (cfg : ChunkConfig)
    (hov : cfg.overlap_size < cfg.chunk_size) :
    ∀ (fuel start cid : Nat), start < toks.length → toks.length - start ≤ fuel →
      (1 ≤ (chunk_loop text toks cfg fuel start cid).length)
      ∧ (∀ i, i < (chunk_loop text toks cfg fuel start cid).length →
          (chunk_loop text toks cfg fuel start cid)[i]? =
            some (mk_chunk text toks
              (start + i * (cfg.chunk_size - cfg.overlap_size))
              (min (start + i * (cfg.chunk_size - cfg.overlap_size) + cfg.chunk_size)
                toks.length)
              (cid + i)))
      ∧ (∀ i, i + 1 < (chunk_loop text toks cfg fuel start cid).length →
          start + i * (cfg.chunk_size - cfg.overlap_size) + cfg.chunk_size
            < toks.length)
      ∧ (start + cfg.chunk_size < toks.length →
          2 ≤ (chunk_loop text toks cfg fuel start cid).length) := by
  intro fuel
  induction fuel with
  | zero => intro start cid hlt hfuel; omega
  | succ fuel ih =>
    intro start cid hlt hfuel
    simp only [chunk_loop]
    rw [if_pos hlt]
    by_cases hend : toks.length ≤ min (start + cfg.chunk_size) toks.length
    · rw [if_pos hend]
      have hmin := Nat.min_le_left (start + cfg.chunk_size) toks.length
      refine ⟨by simp, ?_, ?_, ?_⟩
      · intro i hi
        have hi0 : i = 0 := by simpa using hi
        subst hi0
        simp
      · intro i hi
        simp at hi
      · intro h2
        omega
    · rw [if_neg hend]
      have hsc : start + cfg.chunk_size < toks.length := by omega
      have he : min (start + cfg.chunk_size) toks.length = start + cfg.chunk_size := by
        omega
      rw [he]
      have hlt2 : start + cfg.chunk_size - cfg.overlap_size < toks.length := by omega
      have hfuel2 : toks.length - (start + cfg.chunk_size - cfg.overlap_size) ≤ fuel := by
        omega
      obtain ⟨ih1, ih2, ih3, ih4⟩ :=
        ih (start + cfg.chunk_size - cfg.overlap_size) (cid + 1) hlt2 hfuel2
      refine ⟨by simp, ?_, ?_, ?_⟩
      · intro i hi
        cases i with
        | zero =>
          simp only [List.getElem?_cons_zero, Nat.zero_mul, Nat.add_zero, he,
            Option.some.injEq]
        | succ j =>
          have hj : j < (chunk_loop text toks cfg fuel
              (start + cfg.chunk_size - cfg.overlap_size) (cid + 1)).length := by
            simpa using hi
          rw [List.getElem?_cons_succ, ih2 j hj, Nat.succ_mul]
          congr 2 <;> omega
      · intro i hi
        cases i with
        | zero =>
          simpa using hsc
        | succ j =>
          have hj : j + 1 < (chunk_loop text toks cfg fuel
              (start + cfg.chunk_size - cfg.overlap_size) (cid + 1)).length := by
            simpa using hi
          have h3 := ih3 j hj
          rw [Nat.succ_mul]
          omega
      · intro _
        simp only [List.length_cons]
        omega

/-- C5 counterexample: the empty text has 0 whitespace tokens, which is at
most any configured chunk size, yet `chunk_text` returns no chunk at all
rather than exactly one chunk equal to the input. -/
theorem chunker_empty_text_counterexample :
    chunk_text { chunk_size := 500, overlap_size := 100 } "" = []
    ∧ chunk_text { chunk_size := 500, overlap_size := 100 } ""
        ≠ [{ content := "", start_pos := 0, end_pos := 0, chunk_id := 0 }] := by
  constructor
  · rfl
  · decide

/-- C5 amended: for every non-empty text with at most `chunkSize` whitespace
tokens, `chunk_text` returns exactly one chunk whose content is the input
text (the empty text yields no chunks); for every text with more than
`chunkSize` tokens, under `overlapSize < chunkSize`, at least two chunks are
produced, the `i`-th chunk content is the space-join of the window of up to
`chunkSize` whole tokens starting at token `i * (chunkSize - overlapSize)`
(so the window advances `chunkSize - overlapSize` tokens per step and no
chunk boundary splits a token), every non-final window holds exactly
`chunkSize` tokens, and the last `overlapSize` tokens of each non-final
window are the first `overlapSize` tokens of the next window. -/
theorem chunker_window_amended :
    (∀ (cfg : ChunkConfig) (text : String),
      text ≠ "" → (split_whitespace text).length ≤ cfg.chunk_size →
      chunk_text cfg text =
        [{ content := text, start_pos := 0, end_pos := text.utf8ByteSize,
           chunk_id := 0 }])
    ∧ (∀ (cfg : ChunkConfig) (text : String),
      cfg.overlap_size < cfg.chunk_size →
      cfg.chunk_size < (split_whitespace text).length →
      2 ≤ (chunk_text cfg text).length
      ∧ (∀ i, i < (chunk_text cfg text).length →
          ((chunk_text cfg text)[i]?.map TextChunk.content) =
            some (space_join
              (((split_whitespace text).drop
                  (i * (cfg.chunk_size - cfg.overlap_size))).take
                (min cfg.chunk_size
                  ((split_whitespace text).length
                    - i * (cfg.chunk_size - cfg.overlap_size))))))
      ∧ (∀ i, i + 1 < (chunk_text cfg text).length →
          min cfg.chunk_size
              ((split_whitespace text).length
                - i * (cfg.chunk_size - cfg.overlap_size))
            = cfg.chunk_size)
      ∧ (∀ i, i + 1 < (chunk_text cfg text).length →
          (((split_whitespace text).drop
              (i * (cfg.chunk_size - cfg.overlap_size))).take
            cfg.chunk_size).drop (cfg.chunk_size - cfg.overlap_size)
            = ((split_whitespace text).drop
                ((i + 1) * (cfg.chunk_size - cfg.overlap_size))).take
              cfg.overlap_size)) := by
  constructor
  · intro cfg text htext hlen
    simp only [chunk_text, if_neg htext, if_pos hlen]
  · intro cfg text hov hlen
    have htext : text ≠ "" := by
      intro hempty
      subst hempty
      have : split_whitespace "" = [] := rfl
      rw [this] at hlen
      simp at hlen
    have hnotshort : ¬ (split_whitespace text).length ≤ cfg.chunk_size := by omega
    have hct : chunk_text cfg text =
        chunk_loop text (split_whitespace text) cfg
          ((split_whitespace text).length + 1) 0 0 := by
      simp only [chunk_text, if_neg htext, if_neg hnotshort]
    have h0 : 0 < (split_whitespace text).length := by omega
    have hfuel : (split_whitespace text).length - 0
        ≤ (split_whitespace text).length + 1 := by omega
    obtain ⟨h1, h2, h3, h4⟩ :=
      chunk_loop_spec text (split_whitespace text) cfg hov
        ((split_whitespace text).length + 1) 0 0 h0 hfuel
    refine ⟨?_, ?_, ?_, ?_⟩
    · rw [hct]
      exact h4 (by omega)
    · intro i hi
      rw [hct] at hi ⊢
      rw [h2 i hi]
      have harith : min (i * (cfg.chunk_size - cfg.overlap_size) + cfg.chunk_size)
            (split_whitespace text).length
          - i * (cfg.chunk_size - cfg.overlap_size)
        = min cfg.chunk_size
            ((split_whitespace text).length
              - i * (cfg.chunk_size - cfg.overlap_size)) := by omega
      simp only [Option.map, mk_chunk, Nat.zero_add, harith]
    · intro i hi
      rw [hct] at hi
      have := h3 i hi
      omega
    · intro i hi
      rw [List.drop_take, List.drop_drop]
      have harith : cfg.chunk_size - (cfg.chunk_size - cfg.overlap_size)
          = cfg.overlap_size := by omega
      have harith2 : i * (cfg.chunk_size - cfg.overlap_size)
            + (cfg.chunk_size - cfg.overlap_size)
          = (i + 1) * (cfg.chunk_size - cfg.overlap_size) := by
        rw [Nat.succ_mul]
      rw [harith, harith2]

/-- C5 witness: with `chunkSize = 3` and `overlapSize = 1`, the two-token
text is returned as a single chunk, and a five-token text produces at least
two chunks. -/
theorem chunker_window_amended_witness :
    ("x y" ≠ "" ∧ (split_whitespace "x y").length ≤ 3
      ∧ chunk_text { chunk_size := 3, overlap_size := 1 } "x y"
          = [{ content := "x y", start_pos := 0, end_pos := 3, chunk_id := 0 }])
    ∧ ((1 : Nat) < 3 ∧ 3 < (split_whitespace "a b c d e").length
      ∧ 2 ≤ (chunk_text { chunk_size := 3, overlap_size := 1 } "a b c d e").length) := by
  refine ⟨⟨by decide, by decide, ?_⟩, by decide, by decide, ?_⟩
  · exact chunker_window_amended.1 { chunk_size := 3, overlap_size := 1 } "x y"
      (by decide) (by decide)
  · exact (chunker_window_amended.2 { chunk_size := 3, overlap_size := 1 } "a b c d e"
      (by decide) (by decide)).1

/-- When every append succeeds, persisting the input batch appends it to the
session in order. -/
theorem append_all_ok (ctx : StoreCtx) (hA : ∀ n, ctx.append_fail n = none) :
    ∀ (msgs : List Message) (st : StoreState),
      append_all ctx msgs st =
        Except.ok { session := st.session ++ msgs,
                    append_count := st.append_count + msgs.length } := by
  intro msgs
  induction msgs with
  | nil => intro st; simp [append_all]
  | cons m rest ih =>
    intro st
    simp only [append_all, store_append, hA st.append_count]
    rw [ih]
    simp only [Except.ok.injEq, StoreState.mk.injEq]
    constructor
    · simp
    · simp only [List.length_cons]
      omega

/-- When every append succeeds, the tool loop emits one `tool_usage` event
per invocation in order (successes with their result, failures with the
error text), appends one Tool message per success, and always returns
`Except.ok`. -/
theorem tool_phase_eq (env : Env) (ctx : StoreCtx)
    (hA : ∀ n, ctx.append_fail n = none) :
    ∀ (calls : List ToolInput) (st : StoreState) (acc : List OutputEvent),
      tool_phase env ctx calls st acc =
        Except.ok (acc ++ calls.map (tool_event env),
          { session := st.session ++ calls.filterMap (tool_session_entry env),
            append_count :=
              st.append_count + (calls.filterMap (tool_session_entry env)).length }) := by
  intro calls
  induction calls with
  | nil => intro st acc; simp [tool_phase]
  | cons c rest ih =>
    intro st acc
    simp only [tool_phase]
    cases hexec : env.tool_exec c with
    | ok out =>
      simp only [store_append, hA st.append_count]
      rw [ih]
      simp only [List.map_cons, List.filterMap_cons, tool_event, tool_session_entry,
        hexec, Except.ok.injEq, Prod.mk.injEq, StoreState.mk.injEq]
      refine ⟨by simp, by simp, ?_⟩
      simp only [List.length_cons]
      omega
    | error e =>
      show tool_phase env ctx rest st
          (acc ++ [OutputEvent.toolUsage "unknown" [] 0
            ("Error: " ++ tool_error_display e)]) = _
      rw [ih]
      simp only [List.map_cons, List.filterMap_cons, tool_event, tool_session_entry,
        hexec, Except.ok.injEq, Prod.mk.injEq, StoreState.mk.injEq]
      simp

/-- The generation phase returns `Except.ok` whenever session-store appends
succeed, for every generation outcome. -/
theorem gen_phase_ok (ctx : StoreCtx) (hA : ∀ n, ctx.append_fail n = none)
    (st : StoreState) (r : Except String (List (Except String StreamEvent))) :
    ∃ p, generation_phase ctx st r = Except.ok p := by
  cases r with
  | error e => exact ⟨_, rfl⟩
  | ok stream =>
    simp only [generation_phase]
    by_cases hd : (drain_go stream "").2 = ""
    · rw [if_pos hd]
      exact ⟨_, rfl⟩
    · rw [if_neg hd]
      simp only [store_append, hA st.append_count]
      exact ⟨_, rfl⟩

/-- Draining a stream that starts with a block of content deltas emits the
non-empty deltas in order and accumulates their concatenation before
continuing with the tail. -/
theorem drain_go_deltas (ds : List String) :
    ∀ (tail : List (Except String StreamEvent)) (acc : String),
      drain_go (ds.map (fun t => Except.ok (StreamEvent.contentBlockDelta t)) ++ tail) acc
        = (ds.filterMap (fun t =>
              if t = "" then none else some (OutputEvent.contentDelta t))
             ++ (drain_go tail (acc ++ String.join ds)).1,
           (drain_go tail (acc ++ String.join ds)).2) := by
  induction ds with
  | nil =>
    intro tail acc
    simp [String.join, String.append_empty]
  | cons t rest ih =>
    intro tail acc
    by_cases ht : t = ""
    · subst ht
      have hL : drain_go
            (List.map (fun t => Except.ok (StreamEvent.contentBlockDelta t)) ("" :: rest)
              ++ tail) acc
          = drain_go
              (List.map (fun t => Except.ok (StreamEvent.contentBlockDelta t)) rest
                ++ tail) acc := rfl
      have hR : List.filterMap (fun t =>
            if t = "" then none else some (OutputEvent.contentDelta t)) ("" :: rest)
          = List.filterMap (fun t =>
              if t = "" then none else some (OutputEvent.contentDelta t)) rest := rfl
      have hjoin : String.join ("" :: rest) = String.join rest := by
        rw [string_join_cons, String.empty_append]
      rw [hL, hR, hjoin]
      exact ih tail acc
    · have hL : drain_go
            (List.map (fun t => Except.ok (StreamEvent.contentBlockDelta t)) (t :: rest)
              ++ tail) acc
          = (OutputEvent.contentDelta t
              :: (drain_go
                    (List.map (fun t => Except.ok (StreamEvent.contentBlockDelta t)) rest
                      ++ tail) (acc ++ t)).1,
             (drain_go
                (List.map (fun t => Except.ok (StreamEvent.contentBlockDelta t)) rest
                  ++ tail) (acc ++ t)).2) := by
        simp only [List.map_cons, List.cons_append, drain_go, if_neg ht]
        rfl
      have hR : List.filterMap (fun t =>
            if t = "" then none else some (OutputEvent.contentDelta t)) (t :: rest)
          = OutputEvent.contentDelta t
              :: List.filterMap (fun t =>
                  if t = "" then none else some (OutputEvent.contentDelta t)) rest := by
        rw [List.filterMap_cons, if_neg ht]
      have hjoin : acc ++ t ++ String.join rest = acc ++ String.join (t :: rest) := by
        rw [string_join_cons, String.append_assoc]
      rw [hL, ih tail (acc ++ t), hjoin, hR]
      rfl

/-- C8: detected tool invocations are processed in detection order; a
successful execution appends one Tool-role message to the session and emits
one `tool_usage` event with the invocation name, arguments and result; a
failed execution emits one `tool_usage` event carrying the error text and
appends nothing; the loop always returns `Except.ok`, so a tool failure
never aborts the request and the pipeline continues to the embedding
phase. -/
theorem tool_phase_per_invocation :
    (∀ (env : Env) (ctx : StoreCtx) (calls : List ToolInput) (st : StoreState),
      (∀ n, ctx.append_fail n = none) →
      tool_phase env ctx calls st [] =
        Except.ok (calls.map (tool_event env),
          { session := st.session ++ calls.filterMap (tool_session_entry env),
            append_count :=
              st.append_count + (calls.filterMap (tool_session_entry env)).length }))
    ∧ (∀ (env : Env) (call : ToolInput) (out : ToolOutput),
      env.tool_exec call = Except.ok out →
      tool_event env call = OutputEvent.toolUsage call.name call.arguments 0 out.result
      ∧ tool_session_entry env call
          = some { role := Role.tool, content := out.result, name := some "tool_result" })
    ∧ (∀ (env : Env) (call : ToolInput) (e : ToolError),
      env.tool_exec call = Except.error e →
      tool_event env call
          = OutputEvent.toolUsage "unknown" [] 0 ("Error: " ++ tool_error_display e)
      ∧ tool_session_entry env call = none) := by
  refine ⟨?_, ?_, ?_⟩
  · intro env ctx calls st hA
    rw [tool_phase_eq env ctx hA calls st []]
    simp
  · intro env call out h
    constructor <;> simp [tool_event, tool_session_entry, h]
  · intro env call e h
    constructor <;> simp [tool_event, tool_session_entry, h]

/-- C8 witness: one succeeding and one failing invocation, in order: the
success emits its event and appends one Tool message, the failure emits its
error event and appends nothing, and the phase returns `Except.ok`. -/
theorem tool_phase_per_invocation_witness :
    (∀ n, ctx_ok.append_fail n = none)
    ∧ tool_phase env_demo_tools ctx_ok
        [{ name := "file_summarizer", arguments := [("file_path", "/docs/a.txt")] },
         { name := "nope", arguments := [] }] st_init []
      = Except.ok
          ([OutputEvent.toolUsage "file_summarizer" [("file_path", "/docs/a.txt")] 0
              "summary",
            OutputEvent.toolUsage "unknown" [] 0
              ("Error: " ++ tool_error_display
                { tool_name := "nope", message := "not found", recoverable := false })],
           { session :=
               [{ role := Role.tool, content := "summary", name := some "tool_result" }],
             append_count := 1 }) := by
  refine ⟨fun n => rfl, ?_⟩
  exact (tool_phase_per_invocation.1 env_demo_tools ctx_ok
    [{ name := "file_summarizer", arguments := [("file_path", "/docs/a.txt")] },
     { name := "nope", arguments := [] }] st_init (fun n => rfl)).trans rfl

/-- Draining a run of deltas ended by a stream error, from an empty
accumulator: the non-empty deltas are emitted, then the explanatory
`assistant_output`; the accumulator is the concatenation of the deltas. -/
theorem drain_error_shape (ds : List String) (e : String)
    (rest : List (Except String StreamEvent)) :
    drain_go (ds.map (fun t => Except.ok (StreamEvent.contentBlockDelta t))
        ++ Except.error e :: rest) ""
      = (ds.filterMap (fun t =>
            if t = "" then none else some (OutputEvent.contentDelta t))
          ++ [OutputEvent.assistantOutput (ai_error_msg e)], String.join ds) := by
  rw [drain_go_deltas ds (Except.error e :: rest) "", String.empty_append]
  rfl

/-- Draining a run of deltas ended by MessageStop, from an empty
accumulator: the non-empty deltas are emitted, then `stream_end`; the
accumulator is the concatenation of the deltas; the tail after MessageStop
is never consumed. -/
theorem drain_stop_shape (ds : List String)
    (rest : List (Except String StreamEvent)) :
    drain_go (ds.map (fun t => Except.ok (StreamEvent.contentBlockDelta t))
        ++ Except.ok StreamEvent.messageStop :: rest) ""
      = (ds.filterMap (fun t =>
            if t = "" then none else some (OutputEvent.contentDelta t))
          ++ [OutputEvent.streamEnd], String.join ds) := by
  rw [drain_go_deltas ds (Except.ok StreamEvent.messageStop :: rest) "",
    String.empty_append]
  rfl

/-- C3: if the generation stream yields deltas accumulating non-empty text
and then an error, the accumulated text is still appended to the session as
an Assistant message, the explanatory `assistant_output` event is emitted
and no `stream_end` event appears in the generation events; if the stream
yields MessageStop, a `stream_end` event is emitted and draining ignores
everything after it. -/
theorem generation_stream_error_persistence :
    (∀ (ctx : StoreCtx) (st : StoreState) (ds : List String) (e : String)
        (rest : List (Except String StreamEvent)),
      (∀ n, ctx.append_fail n = none) →
      String.join ds ≠ "" →
      generation_phase ctx st (Except.ok
          (ds.map (fun t => Except.ok (StreamEvent.contentBlockDelta t))
            ++ Except.error e :: rest))
        = Except.ok
            (ds.filterMap (fun t =>
                if t = "" then none else some (OutputEvent.contentDelta t))
               ++ [OutputEvent.assistantOutput (ai_error_msg e)],
             { session := st.session
                 ++ [{ role := Role.assistant, content := String.join ds, name := none }],
               append_count := st.append_count + 1 }))
    ∧ (∀ (ctx : StoreCtx) (st : StoreState) (ds : List String)
        (rest : List (Except String StreamEvent)),
      (∀ n, ctx.append_fail n = none) →
      generation_phase ctx st (Except.ok
          (ds.map (fun t => Except.ok (StreamEvent.contentBlockDelta t))
            ++ Except.ok StreamEvent.messageStop :: rest))
        = Except.ok
            (ds.filterMap (fun t =>
                if t = "" then none else some (OutputEvent.contentDelta t))
               ++ [OutputEvent.streamEnd],
             if String.join ds = "" then st
             else { session := st.session
                      ++ [{ role := Role.assistant, content := String.join ds,
                            name := none }],
                    append_count := st.append_count + 1 })) := by
  constructor
  · intro ctx st ds e rest hA hne
    simp only [generation_phase, drain_error_shape ds e rest]
    rw [if_neg hne]
    simp only [store_append, hA st.append_count]
  · intro ctx st ds rest hA
    simp only [generation_phase, drain_stop_shape ds rest]
    by_cases hj : String.join ds = ""
    · rw [if_pos hj, if_pos hj]
    · rw [if_neg hj, if_neg hj]
      simp only [store_append, hA st.append_count]

/-- C3 witness: a stream yielding `ContentDelta "Partial"` then an error
persists the Assistant message `Partial`, emits the `content_delta` and the
explanatory `assistant_output`, and emits no `stream_end`. -/
theorem generation_stream_error_persistence_witness :
    (∀ n, ctx_ok.append_fail n = none)
    ∧ String.join ["Partial"] ≠ ""
    ∧ generation_phase ctx_ok st_init (Except.ok
          [Except.ok (StreamEvent.contentBlockDelta "Partial"), Except.error "boom"])
        = Except.ok
            ([OutputEvent.contentDelta "Partial",
              OutputEvent.assistantOutput (ai_error_msg "boom")],
             { session := [{ role := Role.assistant, content := "Partial", name := none }],
               append_count := 1 }) := by
  refine ⟨fun n => rfl, by decide, ?_⟩
  exact (generation_stream_error_persistence.1 ctx_ok st_init ["Partial"] "boom" []
    (fun n => rfl) (by decide)).trans rfl

/-- Every `content_delta` event emitted by the draining loop carries
non-empty content. -/
theorem drain_go_no_empty (s : List (Except String StreamEvent)) :
    ∀ (acc t : String), OutputEvent.contentDelta t ∈ (drain_go s acc).1 → t ≠ "" := by
  induction s with
  | nil =>
    intro acc t h
    simp [drain_go] at h
  | cons hd tl ih =>
    intro acc t h
    cases hd with
    | ok ev =>
      cases ev with
      | contentBlockDelta tx =>
        by_cases hx : tx = ""
        · subst hx
          exact ih acc t h
        · have hred : drain_go (Except.ok (StreamEvent.contentBlockDelta tx) :: tl) acc
              = (OutputEvent.contentDelta tx :: (drain_go tl (acc ++ tx)).1,
                 (drain_go tl (acc ++ tx)).2) := by
            simp only [drain_go, if_neg hx]
          rw [hred] at h
          simp only [List.mem_cons] at h
          rcases h with h | h
          · simp only [OutputEvent.contentDelta.injEq] at h
            subst h
            exact hx
          · exact ih (acc ++ tx) t h
      | messageStop =>
        have hred : drain_go (Except.ok StreamEvent.messageStop :: tl) acc
            = ([OutputEvent.streamEnd], acc) := rfl
        rw [hred] at h
        simp at h
      | contentBlockStart => exact ih acc t h
      | contentBlockStop => exact ih acc t h
      | messageStart => exact ih acc t h
      | error m => exact ih acc t h
    | error e =>
      have hred : drain_go (Except.error e :: tl) acc
          = ([OutputEvent.assistantOutput (ai_error_msg e)], acc) := rfl
      rw [hred] at h
      simp at h

/-- Events added by the tool loop are all `tool_usage` events: a
`content_delta` member of its output was already in the accumulator. -/
theorem tool_phase_delta_mem (env : Env) (ctx : StoreCtx) :
    ∀ (calls : List ToolInput) (st : StoreState) (acc evs : List OutputEvent)
      (st2 : StoreState),
      tool_phase env ctx calls st acc = Except.ok (evs, st2) →
      ∀ t, OutputEvent.contentDelta t ∈ evs → OutputEvent.contentDelta t ∈ acc := by
  intro calls
  induction calls with
  | nil =>
    intro st acc evs st2 h t hm
    simp only [tool_phase, Except.ok.injEq, Prod.mk.injEq] at h
    obtain ⟨hevs, _⟩ := h
    subst hevs
    exact hm
  | cons c rest ih =>
    intro st acc evs st2 h t hm
    simp only [tool_phase] at h
    split at h
    · split at h
      · exact Except.noConfusion h
      · have := ih _ _ evs st2 h t hm
        rcases List.mem_append.mp this with hmem | hmem
        · exact hmem
        · simp at hmem
    · have := ih _ _ evs st2 h t hm
      rcases List.mem_append.mp this with hmem | hmem
      · exact hmem
      · simp at hmem

/-- Every `content_delta` event in a successful generation phase carries
non-empty content. -/
theorem generation_phase_no_empty (ctx : StoreCtx) (st : StoreState)
    (r : Except String (List (Except String StreamEvent)))
    (evs : List OutputEvent) (st2 : StoreState) :
    generation_phase ctx st r = Except.ok (evs, st2) →
    ∀ t, OutputEvent.contentDelta t ∈ evs → t ≠ "" := by
  intro h t hm
  cases r with
  | error e =>
    simp only [generation_phase, Except.ok.injEq, Prod.mk.injEq] at h
    obtain ⟨hevs, _⟩ := h
    subst hevs
    simp at hm
  | ok stream =>
    simp only [generation_phase] at h
    split at h
    · simp only [Except.ok.injEq, Prod.mk.injEq] at h
      obtain ⟨hevs, _⟩ := h
      subst hevs
      exact drain_go_no_empty stream "" t hm
    · split at h
      · exact Except.noConfusion h
      · simp only [Except.ok.injEq, Prod.mk.injEq] at h
        obtain ⟨hevs, _⟩ := h
        subst hevs
        exact drain_go_no_empty stream "" t hm

/-- C10: every `content_delta` event emitted by a successful
`process_message` run carries non-empty content, and inserting a
`ContentBlockDelta` with empty text anywhere in the stream leaves the
draining result (events and accumulated text) unchanged. -/
theorem content_delta_nonempty :
    (∀ (env : Env) (ctx : StoreCtx) (messages : List Message) (st0 : StoreState)
        (evs : List OutputEvent) (st2 : StoreState) (t : String),
      process_message env ctx messages st0 = Except.ok (evs, st2) →
      OutputEvent.contentDelta t ∈ evs → t ≠ "")
    ∧ (∀ (pre post : List (Except String StreamEvent)) (acc : String),
      drain_go (pre ++ Except.ok (StreamEvent.contentBlockDelta "") :: post) acc
        = drain_go (pre ++ post) acc) := by
  constructor
  · intro env ctx messages st0 evs st2 t hp hm
    cases hA : append_all ctx messages st0 with
    | error e =>
      simp only [process_message, hA] at hp
      exact Except.noConfusion hp
    | ok st1 =>
      cases hU : find_user_message messages with
      | none =>
        simp only [process_message, hA, hU] at hp
        exact Except.noConfusion hp
      | some u =>
        cases hT : tool_phase env ctx (detect_tool_calls env.document_dir u.content)
            st1 [] with
        | error e =>
          simp only [process_message, hA, hU, hT] at hp
          exact Except.noConfusion hp
        | ok p =>
          obtain ⟨events, stt⟩ := p
          have htool : ∀ t, OutputEvent.contentDelta t ∈ events → False := by
            intro t ht
            have := tool_phase_delta_mem env ctx
              (detect_tool_calls env.document_dir u.content) st1 [] events stt hT t ht
            simp at this
          cases hE : env.embed_result [u.content] with
          | error e =>
            simp only [process_message, hA, hU, hT, hE] at hp
            simp only [Except.ok.injEq, Prod.mk.injEq] at hp
            obtain ⟨hevs, _⟩ := hp
            subst hevs
            rcases List.mem_append.mp hm with hmem | hmem
            · exact absurd hmem (fun hmem => htool t hmem)
            · simp at hmem
          | ok embs =>
            cases embs with
            | nil =>
              simp only [process_message, hA, hU, hT, hE, List.head?_nil] at hp
              simp only [Except.ok.injEq, Prod.mk.injEq] at hp
              obtain ⟨hevs, _⟩ := hp
              subst hevs
              rcases List.mem_append.mp hm with hmem | hmem
              · exact absurd hmem (fun hmem => htool t hmem)
              · simp at hmem
            | cons v vs =>
              cases hS : env.search_result v 5 with
              | error e =>
                simp only [process_message, hA, hU, hT, hE, List.head?_cons, hS] at hp
                simp only [Except.ok.injEq, Prod.mk.injEq] at hp
                obtain ⟨hevs, _⟩ := hp
                subst hevs
                rcases List.mem_append.mp hm with hmem | hmem
                · exact absurd hmem (fun hmem => htool t hmem)
                · simp at hmem
              | ok srs =>
                cases hG : ctx.get_fail with
                | some e =>
                  simp only [process_message, hA, hU, hT, hE, List.head?_cons, hS,
                    session_get, hG] at hp
                  exact Except.noConfusion hp
                | none =>
                  cases hGen : generation_phase ctx stt
                      (env.llm_result
                        (convert_to_llm_messages_static stt.session srs)) with
                  | error e =>
                    simp only [process_message, hA, hU, hT, hE, List.head?_cons, hS,
                      session_get, hG, hGen] at hp
                    exact Except.noConfusion hp
                  | ok q =>
                    obtain ⟨gen_events, st3⟩ := q
                    simp only [process_message, hA, hU, hT, hE, List.head?_cons, hS,
                      session_get, hG, hGen] at hp
                    simp only [Except.ok.injEq, Prod.mk.injEq] at hp
                    obtain ⟨hevs, _⟩ := hp
                    subst hevs
                    rcases List.mem_append.mp hm with hmem | hmem
                    · exact absurd hmem (fun hmem => htool t hmem)
                    · exact generation_phase_no_empty ctx stt _ gen_events st3 hGen t hmem
  · intro pre
    induction pre with
    | nil =>
      intro post acc
      rfl
    | cons hd tl ih =>
      intro post acc
      cases hd with
      | ok ev =>
        cases ev with
        | contentBlockDelta tx =>
          by_cases hx : tx = ""
          · subst hx
            exact ih post acc
          · have hL : drain_go ((Except.ok (StreamEvent.contentBlockDelta tx) :: tl)
                  ++ Except.ok (StreamEvent.contentBlockDelta "") :: post) acc
                = (OutputEvent.contentDelta tx
                    :: (drain_go (tl ++ Except.ok (StreamEvent.contentBlockDelta "")
                          :: post) (acc ++ tx)).1,
                   (drain_go (tl ++ Except.ok (StreamEvent.contentBlockDelta "")
                      :: post) (acc ++ tx)).2) := by
              simp only [List.cons_append, drain_go, if_neg hx]
              rfl
            have hR : drain_go ((Except.ok (StreamEvent.contentBlockDelta tx) :: tl)
                  ++ post) acc
                = (OutputEvent.contentDelta tx
                    :: (drain_go (tl ++ post) (acc ++ tx)).1,
                   (drain_go (tl ++ post) (acc ++ tx)).2) := by
              simp only [List.cons_append, drain_go, if_neg hx]
              rfl
            rw [hL, hR, ih post (acc ++ tx)]
        | messageStop => rfl
        | contentBlockStart => exact ih post acc
        | contentBlockStop => exact ih post acc
        | messageStart => exact ih post acc
        | error m => exact ih post acc
      | error e => rfl

/-- C10 witness: a stream with an empty delta, the delta `Hi` and
MessageStop yields exactly one `content_delta` event, whose content `Hi` is
non-empty. -/
theorem content_delta_nonempty_witness :
    process_message env_stream_demo ctx_ok [msg_user] st_init
      = Except.ok ([OutputEvent.contentDelta "Hi", OutputEvent.streamEnd],
          { session := [msg_user,
              { role := Role.assistant, content := "Hi", name := none }],
            append_count := 2 })
    ∧ OutputEvent.contentDelta "Hi"
        ∈ [OutputEvent.contentDelta "Hi", OutputEvent.streamEnd]
    ∧ "Hi" ≠ "" := by
  refine ⟨rfl, by decide, ?_⟩
  exact content_delta_nonempty.1 env_stream_demo ctx_ok [msg_user] st_init
    [OutputEvent.contentDelta "Hi", OutputEvent.streamEnd]
    { session := [msg_user, { role := Role.assistant, content := "Hi", name := none }],
      append_count := 2 } "Hi" rfl (by decide)

/-- C1 counterexample: when the first session append fails,
`process_message` does not return an event sequence: it propagates the
session-persistence failure as an error. -/
theorem process_session_failure_counterexample :
    process_message env_fail_all ctx_append0_fail [msg_user] st_init
      = Except.error "Failed to append message to session" := by
  rfl

/-- C1 amended: `process_message` returns an event sequence (converting
tool, embedding, retrieval and generation failures into output events)
whenever the session-store appends and fetch succeed and the batch contains
a User message; session-store failures and a missing User message instead
make it fail with an error, which the HTTP handler
`predict_stream_with_agent` converts into an `error_event` followed by an
apology `assistant_output`, so the handler always returns a valid, ordered
event sequence. -/
theorem pipeline_failure_conversion_amended :
    (∀ (env : Env) (ctx : StoreCtx) (messages : List Message) (st0 : StoreState),
      (∀ n, ctx.append_fail n = none) →
      ctx.get_fail = none →
      (find_user_message messages).isSome = true →
      ∃ evs st2, process_message env ctx messages st0 = Except.ok (evs, st2))
    ∧ (∀ (env : Env) (ctx : StoreCtx) (messages : List Message) (st0 : StoreState),
      (∃ evs st2, process_message env ctx messages st0 = Except.ok (evs, st2)
          ∧ predict_stream_with_agent env ctx messages st0 = evs)
      ∨ (∃ e, process_message env ctx messages st0 = Except.error e
          ∧ predict_stream_with_agent env ctx messages st0
              = [create_error_event (classify_error e),
                 OutputEvent.assistantOutput apology_msg])) := by
  constructor
  · intro env ctx messages st0 hA hG hU
    obtain ⟨u, hu⟩ := Option.isSome_iff_exists.mp hU
    simp only [process_message, append_all_ok ctx hA, hu, tool_phase_eq env ctx hA,
      session_get, hG]
    split
    · exact ⟨_, _, rfl⟩
    · split
      · exact ⟨_, _, rfl⟩
      · split
        · exact ⟨_, _, rfl⟩
        · split
          · rename_i heq
            obtain ⟨p, hgen⟩ := gen_phase_ok ctx hA _ _
            rw [hgen] at heq
            exact Except.noConfusion heq
          · exact ⟨_, _, rfl⟩
  · intro env ctx messages st0
    cases hp : process_message env ctx messages st0 with
    | ok p =>
      left
      refine ⟨p.1, p.2, rfl, ?_⟩
      simp only [predict_stream_with_agent, hp]
    | error e =>
      right
      exact ⟨e, rfl, by simp only [predict_stream_with_agent, hp]⟩

/-- C1 witness: with a store whose operations succeed, a batch holding one
User message, and every collaborator failing, `process_message` still
returns an event sequence. -/
theorem pipeline_failure_conversion_amended_witness :
    (∀ n, ctx_ok.append_fail n = none)
    ∧ ctx_ok.get_fail = none
    ∧ (find_user_message [msg_user]).isSome = true
    ∧ ∃ evs st2, process_message env_fail_all ctx_ok [msg_user] st_init
        = Except.ok (evs, st2) := by
  refine ⟨fun n => rfl, rfl, by decide, ?_⟩
  exact pipeline_failure_conversion_amended.1 env_fail_all ctx_ok [msg_user] st_init
    (fun n => rfl) rfl (by decide)
